import Mathlib

/-! # Utility-process AI bridge (shell/utility/ai)

A shallow embedding of `utility_ai_language_model.cc` and
`utility_ai_manager.cc`.

* JavaScript values handed back by the handler are an inductive type
  `Value`; the V8 predicates the C++ code branches on (`IsString`,
  `IsObject`, `IsPromise`) are functions on it.
* A mojo call on a remote (`responder->OnStreaming`, `client_remote->OnError`,
  a reply callback being run) is an element of an effect list.  Every
  operation returns a `Trace`: the effects performed before the C++ method
  returns (`sync`) and the effects performed by the continuation attached with
  `promise->Then` once the promise settles (`later`).
* Numbers are kept abstract: the type `Num` of JS numbers, the type `F32` of
  C++ `float` and the gin number converters are parameters (`Gin`).
* The prompt content converter writes byte buffers (lists of bytes); the
  storage of a `float` (`FloatLayout`) and the pixel conversion of Skia
  (`ReadPixels`) are parameters.
* A sequence of calls on one manager is `runCalls`.
-/

namespace electron

/-! ## JavaScript values -/

/-- Eventual outcome of a promise: it never settles, it is fulfilled with a
value, or it is rejected with a reason. -/
inductive Fate (α : Type) where
  | pending : Fate α
  | fulfilled (result : α) : Fate α
  | rejected (reason : α) : Fate α

/-- A `v8::Local<v8::Value>` as far as the bridge inspects it.  `object` is any
JS object that is not a promise (plain objects, arrays, functions, wrapper
objects), given by its properties as `Has`/`Get` see them.  A promise is an
object as well (`v8::Promise` derives from `v8::Object`), so it carries
properties too, together with its eventual outcome. -/
inductive Value (Num : Type) where
  | undefined : Value Num
  | null : Value Num
  | boolean (b : Bool) : Value Num
  | number (n : Num) : Value Num
  | bigint (i : Int) : Value Num
  | symbol (description : String) : Value Num
  | string (s : String) : Value Num
  | object (props : List (String × Value Num)) : Value Num
  | promise (props : List (String × Value Num)) (fate : Fate (Value Num)) : Value Num

namespace Value

variable {Num : Type}

/-- `v8::Value::IsString`: true for primitive strings only. -/
def IsString : Value Num → Bool
  | string _ => true
  | _ => false

/-- `v8::Value::IsPromise`. -/
def IsPromise : Value Num → Bool
  | promise _ _ => true
  | _ => false

/-- `v8::Value::IsObject`: true for every JS object, promises included. -/
def IsObject : Value Num → Bool
  | object _ => true
  | promise _ _ => true
  | _ => false

end Value

/-- `gin::Converter<std::string>::FromV8`: succeeds on primitive strings; the
string is modelled by its UTF-8 conversion. -/
def stringFromV8 {Num : Type} : Value Num → Option String
  | .string s => some s
  | _ => none

/-- Effects before the method returns, and effects of the continuation that
runs when the awaited promise settles. -/
structure Trace (E : Type) where
  sync : List E
  later : List E
  deriving DecidableEq, Repr

/-- Every effect of a run, in order. -/
def Trace.all {E : Type} (t : Trace E) : List E := t.sync ++ t.later

/-! ## `blink::mojom::ModelStreamingResponder` -/

/-- `blink::mojom::ModelStreamingResponseStatus`.  The source names
`kErrorUnknown` only; `other` stands for the remaining enumerators. -/
inductive ModelStreamingResponseStatus where
  | kErrorUnknown
  | other (code : Nat)
  deriving DecidableEq, Repr

/-- `blink::mojom::ModelExecutionContextInfo`, built by `New(current_tokens)`. -/
structure ModelExecutionContextInfo where
  current_tokens : Nat
  deriving DecidableEq, Repr

/-- `blink::mojom::QuotaErrorInfo`; a null pointer is `none`. -/
structure QuotaErrorInfo where
  requested : Nat
  quota : Nat
  deriving DecidableEq, Repr

/-- Calls made on the `mojo::Remote<ModelStreamingResponder>`. -/
inductive ResponderEvent where
  | OnStreaming (text : String)
  | OnCompletion (context_info : ModelExecutionContextInfo)
  | OnError (status : ModelStreamingResponseStatus)
      (quota_error_info : Option QuotaErrorInfo)
  deriving DecidableEq, Repr

/-- The event is an `OnError`. -/
def ResponderEvent.isError : ResponderEvent → Bool
  | .OnError _ _ => true
  | _ => false

/-! ## `UtilityAILanguageModel::Prompt` -/

/-- Body of the resolve continuation `then_cb` of `Prompt`: empty in the
source. -/
def Prompt.then_cb {Num : Type} (_result : Value Num) : List ResponderEvent := []

/-- Body of the reject continuation `catch_cb` of `Prompt`: empty in the
source. -/
def Prompt.catch_cb {Num : Type} (_result : Value Num) : List ResponderEvent := []

/-- `UtilityAILanguageModel::Prompt`, from the point where
`gin_helper::CallMethod(isolate, language_model_, "prompt", prompts, constraint)`
has returned `val`. -/
def Prompt {Num : Type} (val : Value Num) : Trace ResponderEvent :=
  if val.IsString then
    let response : String := (stringFromV8 val).getD ""
    { sync := [.OnStreaming response, .OnCompletion (ModelExecutionContextInfo.mk 0)]
      later := [] }
  else if val.IsPromise then
    match val with
    | .promise _ (.fulfilled result) => { sync := [], later := Prompt.then_cb result }
    | .promise _ (.rejected reason) => { sync := [], later := Prompt.catch_cb reason }
    | _ => { sync := [], later := [] }
  else
    { sync := [.OnError .kErrorUnknown none], later := [] }

/-! ## Prompt content converters (`utility_ai_language_model.cc`) -/

/-- `blink::mojom::AILanguageModelPromptRole`; `other` is a value of the enum
type that is none of the three enumerators. -/
inductive AILanguageModelPromptRole where
  | kSystem
  | kUser
  | kAssistant
  | other (value : Nat)
  deriving DecidableEq, Repr

/-- `gin::Converter<AILanguageModelPromptRole>::ToV8`. -/
def roleToV8 {Num : Type} : AILanguageModelPromptRole → Value Num
  | .kSystem => .string "system"
  | .kUser => .string "user"
  | .kAssistant => .string "assistant"
  | .other _ => .string "unknown"

/-- Modelled from the spec: Skia's `SkColorType` is not among the sources;
only the pixel formats needed to tell the canonical 32-bit format (`kN32`)
from narrower and wider ones are listed. -/
inductive SkColorType where
  | kAlpha_8
  | kRGB_565
  | kN32
  | kRGBA_F16
  deriving DecidableEq, Repr

/-- Modelled from the spec: Skia's `SkAlphaType` is not among the sources. -/
inductive SkAlphaType where
  | kOpaque
  | kPremul
  | kUnpremul
  deriving DecidableEq, Repr

/-- Modelled from the spec: Skia's `SkImageInfo` is not among the sources:
dimensions, pixel format and alpha type of an image. -/
structure SkImageInfo where
  width : Nat
  height : Nat
  colorType : SkColorType
  alphaType : SkAlphaType
  deriving DecidableEq, Repr

/-- Modelled from the spec: `SkImageInfo::bytesPerPixel`, not among the
sources; the canonical format has 32 bits per pixel. -/
def SkImageInfo.bytesPerPixel (info : SkImageInfo) : Nat :=
  match info.colorType with
  | .kAlpha_8 => 1
  | .kRGB_565 => 2
  | .kN32 => 4
  | .kRGBA_F16 => 8

/-- Modelled from the spec: `SkImageInfo::MakeN32Premul`, not among the
sources: the canonical 32-bit, premultiplied-alpha layout with the given
dimensions. -/
def SkImageInfo.MakeN32Premul (dimensions : Nat × Nat) : SkImageInfo :=
  { width := dimensions.1, height := dimensions.2, colorType := .kN32, alphaType := .kPremul }

/-- Modelled from the spec: `SkImageInfo::minRowBytes`, not among the sources:
the minimum packed stride, one row of pixels without padding.  (Skia's guard
for strides above `2 ^ 31 - 1` is left out.) -/
def SkImageInfo.minRowBytes (info : SkImageInfo) : Nat :=
  info.width * info.bytesPerPixel

/-- Modelled from the spec: `SkImageInfo::computeMinByteSize`, not among the
sources: the bytes of `height` rows at the minimum stride
(`height * row_stride`).  (Skia's guard for sizes above `SIZE_MAX` is left
out.) -/
def SkImageInfo.computeMinByteSize (info : SkImageInfo) : Nat :=
  info.height * info.minRowBytes

/-- Modelled from the spec: Skia's `SkBitmap` is not among the sources: an
image with its layout, its row stride and its raw bytes. -/
structure SkBitmap where
  info : SkImageInfo
  rowBytes : Nat
  pixels : List Nat
  deriving DecidableEq, Repr

/-- `SkBitmap::dimensions`. -/
def SkBitmap.dimensions (bitmap : SkBitmap) : Nat × Nat :=
  (bitmap.info.width, bitmap.info.height)

/-- The arguments of a `SkBitmap::readPixels(dstInfo, dstPixels, dstRowBytes,
srcX, srcY)` call, the destination pointer apart. -/
structure ReadPixelsCall where
  dstInfo : SkImageInfo
  dstRowBytes : Nat
  srcX : Int
  srcY : Int
  deriving DecidableEq, Repr

/-- The pixel conversion of Skia, a parameter: the bytes `readPixels` writes to
the destination, or `none` when it returns false. -/
abbrev ReadPixels := SkBitmap → ReadPixelsCall → Option (List Nat)

/-- `on_device_model::mojom::AudioData`. -/
structure AudioData (F32 : Type) where
  sample_rate : Int
  channel_count : Int
  data : List F32
  deriving DecidableEq, Repr

/-- `blink::mojom::AILanguageModelPromptContent`, a union of text, bitmap and
audio. -/
inductive AILanguageModelPromptContent (F32 : Type) where
  | text (text : String)
  | bitmap (bitmap : SkBitmap)
  | audio (audio : AudioData F32)
  deriving DecidableEq, Repr

/-- How the platform stores a `float` and narrows it, both parameters:
* `bytes`: the object representation of the value, `sizeof(float)` bytes in
  native order;
* `toChar`: the byte stored by `*out = value` for `char* out`, the implicit
  conversion from `float` to `char`. -/
structure FloatLayout (F32 : Type) where
  bytes : F32 → List Nat
  toChar : F32 → Nat

/-- The value of `sizeof(float)`. -/
def sizeofFloat : Nat := 4

/-- `v8::ArrayBuffer::New(isolate, byte_length)`: a zero-filled buffer. -/
def ArrayBuffer.New (byte_length : Nat) : List Nat :=
  List.replicate byte_length 0

/-- Store `data` at the start of the buffer `buf`; the length of the buffer
does not change. -/
def writeBytes (buf data : List Nat) : List Nat :=
  data.take buf.length ++ buf.drop data.length

/-- The values the content converter stores in its dictionary. -/
inductive MarshaledValue where
  | string (s : String)
  | arrayBuffer (data : List Nat)
  deriving DecidableEq, Repr

/-- The `readPixels` call of the bitmap branch of the content converter. -/
def imageReadPixelsCall (bitmap : SkBitmap) : ReadPixelsCall :=
  let dst_info := SkImageInfo.MakeN32Premul bitmap.dimensions
  { dstInfo := dst_info, dstRowBytes := dst_info.minRowBytes, srcX := 0, srcY := 0 }

/-- The bitmap branch of the content converter: the `ArrayBuffer` stored under
`"image"`.  When `readPixels` fails the buffer is left as allocated. -/
def imageToArrayBuffer (readPixels : ReadPixels) (bitmap : SkBitmap) : List Nat :=
  let dst_info := SkImageInfo.MakeN32Premul bitmap.dimensions
  let dst_n_bytes := dst_info.computeMinByteSize
  let dst_buf := ArrayBuffer.New dst_n_bytes
  match readPixels bitmap (imageReadPixelsCall bitmap) with
  | some pixels => writeBytes dst_buf pixels
  | none => dst_buf

/-- The audio branch of the content converter: the `ArrayBuffer` stored under
`"audio"`.  `std::ranges::copy(raw_data, static_cast<char*>(dst_buf->Data()))`
assigns one element of `raw_data` to one `char` of the destination. -/
def audioToArrayBuffer {F32 : Type} (layout : FloatLayout F32)
    (audio_data : AudioData F32) : List Nat :=
  let raw_data := audio_data.data
  let dst_n_bytes := sizeofFloat * raw_data.length
  let dst_buf := ArrayBuffer.New dst_n_bytes
  writeBytes dst_buf (raw_data.map layout.toChar)

/-- `gin::Converter<AILanguageModelPromptContentPtr>::ToV8`; a null pointer is
`none`, and so is the result `v8::Undefined`. -/
def promptContentToV8 {F32 : Type} (layout : FloatLayout F32) (readPixels : ReadPixels)
    (val : Option (AILanguageModelPromptContent F32)) :
    Option (List (String × MarshaledValue)) :=
  match val with
  | none => none
  | some (.text text) => some [("type", .string "text"), ("text", .string text)]
  | some (.bitmap bitmap) =>
    some [("type", .string "image"),
          ("image", .arrayBuffer (imageToArrayBuffer readPixels bitmap))]
  | some (.audio audio_data) =>
    some [("type", .string "audio"),
          ("audio", .arrayBuffer (audioToArrayBuffer layout audio_data))]

/-- The byte-for-byte copy of a sample array: the object representations of
the samples one after the other. -/
def sampleBytes {F32 : Type} (layout : FloatLayout F32) (raw_data : List F32) : List Nat :=
  (raw_data.map layout.bytes).flatten

/-! ## gin converters -/

/-- The gin number converters, for an abstract type `Num` of JS numbers and an
abstract type `F32` of C++ `float`.
* `toUint64`: `Converter<uint64_t>::FromV8` on a Number
  (`IntegerValue` followed by `FromMaybe`);
* `toUint32`: `Converter<uint32_t>::FromV8` on a Number (fails unless
  `IsUint32`);
* `toFloat`: `Converter<float>::FromV8` on a Number (`static_cast<float>`);
* `ofUint32`, `ofFloat`: the `ToV8` directions. -/
structure Gin (Num F32 : Type) where
  toUint64 : Num → Option Nat
  toUint32 : Num → Option Nat
  toFloat : Num → F32
  ofUint32 : Nat → Num
  ofFloat : F32 → Num

namespace Gin

variable {Num F32 : Type}

/-- `gin::Converter<uint64_t>::FromV8`: false unless `val->IsNumber()`. -/
def uint64FromV8 (g : Gin Num F32) : Value Num → Option Nat
  | .number n => g.toUint64 n
  | _ => none

/-- `gin::Converter<uint32_t>::FromV8`: false unless `val->IsUint32()`. -/
def uint32FromV8 (g : Gin Num F32) : Value Num → Option Nat
  | .number n => g.toUint32 n
  | _ => none

/-- `gin::Converter<float>::FromV8`: false unless `val->IsNumber()`. -/
def floatFromV8 (g : Gin Num F32) : Value Num → Option F32
  | .number n => some (g.toFloat n)
  | _ => none

end Gin

/-- A `gin_helper::Dictionary`: the properties of the wrapped object. -/
abbrev Dictionary (Num : Type) := List (String × Value Num)

/-- `gin::ConvertFromV8(isolate, val, &dict)` for a `gin_helper::Dictionary`:
succeeds exactly on objects. -/
def dictionaryFromV8 {Num : Type} : Value Num → Option (Dictionary Num)
  | .object props => some props
  | .promise props _ => some props
  | _ => none

/-- `gin_helper::Dictionary::Get(key, &out)`: the key has to be present
(`Has`) and its value has to convert to the type of `out`. -/
def Dictionary.Get {Num T : Type} (conv : Value Num → Option T)
    (dict : Dictionary Num) (key : String) : Option T :=
  match dict.lookup key with
  | some value => conv value
  | none => none

/-- `FromV8WithLookup(isolate, val, table, out)`: converts `val` to a string
key and looks it up in `table`. -/
def FromV8WithLookup {Num Out : Type} (val : Value Num)
    (table : List (String × Out)) : Option Out :=
  match stringFromV8 val with
  | some key => table.lookup key
  | none => none

/-! ## mojom types -/

/-- `blink::mojom::ModelAvailabilityCheckResult`.  The source names four
enumerators; `other` stands for the remaining ones. -/
inductive ModelAvailabilityCheckResult where
  | kAvailable
  | kUnavailableUnknown
  | kDownloading
  | kDownloadable
  | other (code : Nat)
  deriving DecidableEq, Repr

/-- `blink::mojom::AIManagerCreateClientError`.  The source names
`kUnableToCreateSession` only; `other` stands for the remaining enumerators. -/
inductive AIManagerCreateClientError where
  | kUnableToCreateSession
  | other (code : Nat)
  deriving DecidableEq, Repr

/-- Modelled from the spec: `blink::mojom::AILanguageModelPromptType`, whose
mojom declaration is not among the sources; the content tags are text, image
and audio, in this order. -/
inductive AILanguageModelPromptType where
  | kText
  | kImage
  | kAudio
  deriving DecidableEq, Repr

/-- Underlying value of the enumerator, which `operator<` compares. -/
def AILanguageModelPromptType.toNat : AILanguageModelPromptType → Nat
  | .kText => 0
  | .kImage => 1
  | .kAudio => 2

/-- `blink::mojom::AILanguageModelExpected`: a content type with optional
language codes. -/
structure AILanguageModelExpected where
  type : AILanguageModelPromptType
  languages : Option (List String)
  deriving DecidableEq, Repr

/-- `blink::mojom::AILanguageModelSamplingParams`. -/
structure AILanguageModelSamplingParams (F32 : Type) where
  top_k : Nat
  temperature : F32
  deriving DecidableEq, Repr

/-- `blink::mojom::AILanguageModelCreateOptions`, with the fields the bridge
reads (`initial_prompts` is never read). -/
structure AILanguageModelCreateOptions (F32 : Type) where
  sampling_params : Option (AILanguageModelSamplingParams F32)
  expected_inputs : Option (List AILanguageModelExpected)
  expected_outputs : Option (List AILanguageModelExpected)
  deriving DecidableEq, Repr

/-- Modelled from the spec: `blink::mojom::AILanguageModelInstanceInfo`, whose
mojom declaration is not among the sources: `input_quota`, `input_usage`, the
effective sampling parameters and the enabled input types, in this order.
`AILanguageModelInstanceInfo::New` takes the fields in declaration order. -/
structure AILanguageModelInstanceInfo (F32 : Type) where
  input_quota : Nat
  input_usage : Nat
  sampling_params : AILanguageModelSamplingParams F32
  input_types : List AILanguageModelPromptType
  deriving DecidableEq, Repr

/-- `blink::mojom::AILanguageModelParams`: the default and the maximum
sampling parameters. -/
structure AILanguageModelParams (F32 : Type) where
  default_sampling_params : AILanguageModelSamplingParams F32
  max_sampling_params : AILanguageModelSamplingParams F32
  deriving DecidableEq, Repr

/-- `gin::Converter<AILanguageModelParamsPtr>::FromV8`. -/
def paramsFromV8 {Num F32 : Type} (g : Gin Num F32) (val : Value Num) :
    Option (AILanguageModelParams F32) :=
  match dictionaryFromV8 val with
  | none => none
  | some dict =>
    match dict.Get g.uint32FromV8 "defaultTopK" with
    | none => none
    | some default_top_k =>
      match dict.Get g.floatFromV8 "defaultTemperature" with
      | none => none
      | some default_temperature =>
        match dict.Get g.uint32FromV8 "maxTopK" with
        | none => none
        | some max_top_k =>
          match dict.Get g.floatFromV8 "maxTemperature" with
          | none => none
          | some max_temperature =>
            some
              { default_sampling_params :=
                  { top_k := default_top_k, temperature := default_temperature }
                max_sampling_params :=
                  { top_k := max_top_k, temperature := max_temperature } }

/-- `gin::Converter<ModelAvailabilityCheckResult>::FromV8`. -/
def availabilityFromV8 {Num : Type} (val : Value Num) :
    Option ModelAvailabilityCheckResult :=
  FromV8WithLookup val
    [ ("available", .kAvailable),
      ("unavailable", .kUnavailableUnknown),
      ("downloading", .kDownloading),
      ("downloadable", .kDownloadable) ]

/-- `gin::Converter<AILanguageModelCreateOptionsPtr>::ToV8`; a null pointer is
`none`. -/
def createOptionsToV8 {Num F32 : Type} (g : Gin Num F32)
    (val : Option (AILanguageModelCreateOptions F32)) : Value Num :=
  match val with
  | none => .undefined
  | some o =>
    match o.sampling_params with
    | none => .undefined
    | some sampling_params =>
      .object [ ("topK", .number (g.ofUint32 sampling_params.top_k)),
                ("temperature", .number (g.ofFloat sampling_params.temperature)) ]

/-! ## `base::flat_set` -/

/-- `base::flat_set::insert` on the sorted vector that backs the set: find the
first element that is not less than `x` (`lower_bound`); insert `x` there
unless that element is equivalent to `x`. -/
def flat_set_insert (s : List AILanguageModelPromptType)
    (x : AILanguageModelPromptType) : List AILanguageModelPromptType :=
  match s with
  | [] => [x]
  | y :: ys =>
    if y.toNat < x.toNat then y :: flat_set_insert ys x
    else if x.toNat < y.toNat then x :: y :: ys
    else y :: ys

/-! ## `UtilityAIManager` -/

/-- The `details` dictionary handed to the handler provider. -/
structure HandlerDetails where
  webContentsId : Option Int
  securityOrigin : String
  deriving DecidableEq, Repr

/-- Everything the manager does that is visible outside of it. -/
inductive Effect (F32 : Type) where
  /-- The call `handler->Run(details)` of the handler provider. -/
  | handlerRun (details : HandlerDetails)
  /-- The call `isolate->ThrowException(v8::Exception::TypeError(message))`. -/
  | throwException (message : String)
  /-- A `gin_helper::CallMethod` on the language model class. -/
  | callMethod (method_name : String)
  /-- The `CanCreateLanguageModelCallback` being run. -/
  | canCreateCallback (result : ModelAvailabilityCheckResult)
  /-- The `GetLanguageModelParamsCallback` being run; `nullptr` is `none`. -/
  | paramsCallback (params : Option (AILanguageModelParams F32))
  /-- The call `client_remote->OnError(error, quota_error_info)`. -/
  | clientOnError (error : AIManagerCreateClientError)
      (quota_error_info : Option QuotaErrorInfo)
  /-- The call `client_remote->OnResult(language_model_remote, info)`. -/
  | clientOnResult (info : AILanguageModelInstanceInfo F32)
  deriving DecidableEq, Repr

/-- The effect is a reply on the `AIManagerCreateLanguageModelClient`. -/
def Effect.isClientReply {F32 : Type} : Effect F32 → Bool
  | .clientOnError _ _ => true
  | .clientOnResult _ => true
  | _ => false

/-- The effect is a reply callback being run. -/
def Effect.isCallback {F32 : Type} : Effect F32 → Bool
  | .canCreateCallback _ => true
  | .paramsCallback _ => true
  | _ => false

/-- The effect is a run of the handler provider. -/
def Effect.isHandlerRun {F32 : Type} : Effect F32 → Bool
  | .handlerRun _ => true
  | _ => false

/-- The reply callbacks run, in order. -/
def callbackRuns {F32 : Type} (t : Trace (Effect F32)) : List (Effect F32) :=
  t.all.filter Effect.isCallback

/-- Number of times the handler provider is run. -/
def providerRuns {F32 : Type} (effects : List (Effect F32)) : Nat :=
  (effects.filter Effect.isHandlerRun).length

/-- The replies sent to the `AIManagerCreateLanguageModelClient`, in order. -/
def clientReplies {F32 : Type} (t : Trace (Effect F32)) : List (Effect F32) :=
  t.all.filter Effect.isClientReply

/-- The language model class returned by the handler provider: what its static
methods return for the converted arguments. -/
structure LanguageModelClass (Num : Type) where
  availability : Value Num → Value Num
  create : Value Num → Value Num
  params : Value Num

/-- What `handler->Run(details)` returns: an object that is a constructor, or
any other value. -/
inductive HandlerResult (Num : Type) where
  | constructible (cls : LanguageModelClass Num) : HandlerResult Num
  | notConstructible (val : Value Num) : HandlerResult Num

/-- The result of `electron::api::local_ai_handler::GetPromptAPIHandler()`:
the provider callback, when one is set. -/
abbrev PromptAPIHandler (Num : Type) := Option (HandlerDetails → HandlerResult Num)

/-- `UtilityAIManager`; an empty `v8::Global` is `none`, and the origin is
kept as `security_origin_.GetURL().spec()`. -/
structure UtilityAIManager (Num : Type) where
  web_contents_id_ : Option Int
  security_origin_ : String
  language_model_class_ : Option (LanguageModelClass Num)

/-- The constructor `UtilityAIManager(web_contents_id, security_origin)`. -/
def UtilityAIManager.new {Num : Type} (web_contents_id : Option Int)
    (security_origin : String) : UtilityAIManager Num :=
  { web_contents_id_ := web_contents_id
    security_origin_ := security_origin
    language_model_class_ := none }

/-- `SendClientRemoteError(client, error)`. -/
def SendClientRemoteError {F32 : Type} (error : AIManagerCreateClientError) :
    List (Effect F32) :=
  [.clientOnError error none]

/-- `CreateLanguageModelInternal(isolate, language_model, client, options)`. -/
def CreateLanguageModelInternal {Num F32 : Type} (g : Gin Num F32)
    (language_model : Value Num) (options : AILanguageModelCreateOptions F32) :
    List (Effect F32) :=
  match dictionaryFromV8 language_model with
  | none => SendClientRemoteError .kUnableToCreateSession
  | some dict =>
    match dict.Get g.uint64FromV8 "inputUsage" with
    | none => SendClientRemoteError .kUnableToCreateSession
    | some input_usage =>
      match dict.Get g.uint64FromV8 "inputQuota" with
      | none => SendClientRemoteError .kUnableToCreateSession
      | some input_quota =>
        match dict.Get g.uint32FromV8 "topK" with
        | none => SendClientRemoteError .kUnableToCreateSession
        | some top_k =>
          match dict.Get g.floatFromV8 "temperature" with
          | none => SendClientRemoteError .kUnableToCreateSession
          | some temperature =>
            let model_sampling_params : AILanguageModelSamplingParams F32 :=
              { top_k := top_k, temperature := temperature }
            let enabled_input_types : List AILanguageModelPromptType :=
              match options.expected_inputs with
              | some expected_inputs =>
                expected_inputs.foldl
                  (fun set expected_input => flat_set_insert set expected_input.type) []
              | none => []
            [.clientOnResult
              (AILanguageModelInstanceInfo.mk input_quota input_usage
                model_sampling_params enabled_input_types)]

/-- `UtilityAIManager::GetLanguageModelClass`: returns the manager after the
call (whose `language_model_class_` is the returned reference) and the effects
of the call. -/
def GetLanguageModelClass {Num F32 : Type} (handler : PromptAPIHandler Num)
    (m : UtilityAIManager Num) : UtilityAIManager Num × List (Effect F32) :=
  match m.language_model_class_ with
  | some _ => (m, [])
  | none =>
    match handler with
    | none => (m, [])
    | some run =>
      let details : HandlerDetails :=
        { webContentsId := m.web_contents_id_, securityOrigin := m.security_origin_ }
      match run details with
      | .notConstructible _ =>
        (m, [.handlerRun details, .throwException "Must provide a constructible class"])
      | .constructible cls =>
        ({ m with language_model_class_ := some cls }, [.handlerRun details])

/-- Resolve continuation of `CanCreateLanguageModel`. -/
def CanCreateLanguageModel.then_cb {Num F32 : Type} (result : Value Num) :
    List (Effect F32) :=
  match (if result.IsString then availabilityFromV8 result else none) with
  | some availability => [.canCreateCallback availability]
  | none => [.canCreateCallback .kUnavailableUnknown]

/-- Reject continuation of `CanCreateLanguageModel`. -/
def CanCreateLanguageModel.catch_cb {Num F32 : Type} (_result : Value Num) :
    List (Effect F32) :=
  [.canCreateCallback .kUnavailableUnknown]

/-- `UtilityAIManager::CanCreateLanguageModel(options, cb)`. -/
def CanCreateLanguageModel {Num F32 : Type} (g : Gin Num F32)
    (handler : PromptAPIHandler Num) (m : UtilityAIManager Num)
    (options : Option (AILanguageModelCreateOptions F32)) :
    UtilityAIManager Num × Trace (Effect F32) :=
  let r := GetLanguageModelClass handler m
  let availability : ModelAvailabilityCheckResult := .kUnavailableUnknown
  match r.1.language_model_class_ with
  | none => (r.1, { sync := r.2 ++ [.canCreateCallback availability], later := [] })
  | some language_model_class =>
    let val := language_model_class.availability (createOptionsToV8 g options)
    let called : List (Effect F32) := r.2 ++ [.callMethod "availability"]
    match (if val.IsString then availabilityFromV8 val else none) with
    | some converted =>
      (r.1, { sync := called ++ [.canCreateCallback converted], later := [] })
    | none =>
      if val.IsPromise then
        match val with
        | .promise _ (.fulfilled result) =>
          (r.1, { sync := called, later := CanCreateLanguageModel.then_cb result })
        | .promise _ (.rejected reason) =>
          (r.1, { sync := called, later := CanCreateLanguageModel.catch_cb reason })
        | _ => (r.1, { sync := called, later := [] })
      else
        (r.1, { sync := called ++ [.canCreateCallback availability], later := [] })

/-- Resolve continuation of `CreateLanguageModel`: both branches are commented
out in the source, so it does nothing. -/
def CreateLanguageModel.then_cb {Num F32 : Type} (result : Value Num) :
    List (Effect F32) :=
  if result.IsObject then [] else []

/-- Reject continuation of `CreateLanguageModel`: its body is commented out in
the source, so it does nothing. -/
def CreateLanguageModel.catch_cb {Num F32 : Type} (_result : Value Num) :
    List (Effect F32) := []

/-- `UtilityAIManager::CreateLanguageModel(client, options)`. -/
def CreateLanguageModel {Num F32 : Type} (g : Gin Num F32)
    (handler : PromptAPIHandler Num) (m : UtilityAIManager Num)
    (options : AILanguageModelCreateOptions F32) :
    UtilityAIManager Num × Trace (Effect F32) :=
  let r := GetLanguageModelClass handler m
  match r.1.language_model_class_ with
  | none =>
    (r.1, { sync := r.2 ++ SendClientRemoteError .kUnableToCreateSession, later := [] })
  | some language_model_class =>
    let val := language_model_class.create (createOptionsToV8 g (some options))
    let called : List (Effect F32) := r.2 ++ [.callMethod "create"]
    if val.IsObject then
      (r.1, { sync := called ++ CreateLanguageModelInternal g val options, later := [] })
    else if val.IsPromise then
      match val with
      | .promise _ (.fulfilled result) =>
        (r.1, { sync := called, later := CreateLanguageModel.then_cb result })
      | .promise _ (.rejected reason) =>
        (r.1, { sync := called, later := CreateLanguageModel.catch_cb reason })
      | _ => (r.1, { sync := called, later := [] })
    else
      (r.1, { sync := called ++ SendClientRemoteError .kUnableToCreateSession,
              later := [] })

/-- Resolve continuation of `GetLanguageModelParams`. -/
def GetLanguageModelParams.then_cb {Num F32 : Type} (g : Gin Num F32)
    (result : Value Num) : List (Effect F32) :=
  match (if result.IsObject then paramsFromV8 g result else none) with
  | some params => [.paramsCallback (some params)]
  | none => [.paramsCallback none]

/-- Reject continuation of `GetLanguageModelParams`. -/
def GetLanguageModelParams.catch_cb {Num F32 : Type} (_result : Value Num) :
    List (Effect F32) :=
  [.paramsCallback none]

/-- `UtilityAIManager::GetLanguageModelParams(callback)`. -/
def GetLanguageModelParams {Num F32 : Type} (g : Gin Num F32)
    (handler : PromptAPIHandler Num) (m : UtilityAIManager Num) :
    UtilityAIManager Num × Trace (Effect F32) :=
  let r := GetLanguageModelClass handler m
  match r.1.language_model_class_ with
  | none => (r.1, { sync := r.2 ++ [.paramsCallback none], later := [] })
  | some language_model_class =>
    let val := language_model_class.params
    let called : List (Effect F32) := r.2 ++ [.callMethod "params"]
    match (if val.IsObject then paramsFromV8 g val else none) with
    | some params =>
      (r.1, { sync := called ++ [.paramsCallback (some params)], later := [] })
    | none =>
      if val.IsPromise then
        match val with
        | .promise _ (.fulfilled result) =>
          (r.1, { sync := called, later := GetLanguageModelParams.then_cb g result })
        | .promise _ (.rejected reason) =>
          (r.1, { sync := called, later := GetLanguageModelParams.catch_cb reason })
        | _ => (r.1, { sync := called, later := [] })
      else
        (r.1, { sync := called ++ [.paramsCallback none], later := [] })

/-! ## Sequences of calls on one manager -/

/-- A call of one of the three language model entry points. -/
inductive ManagerCall (F32 : Type) where
  | CanCreateLanguageModel (options : Option (AILanguageModelCreateOptions F32))
  | CreateLanguageModel (options : AILanguageModelCreateOptions F32)
  | GetLanguageModelParams

/-- Perform one call on the manager. -/
def ManagerCall.run {Num F32 : Type} (g : Gin Num F32) (handler : PromptAPIHandler Num)
    (m : UtilityAIManager Num) : ManagerCall F32 → UtilityAIManager Num × Trace (Effect F32)
  | .CanCreateLanguageModel options => electron.CanCreateLanguageModel g handler m options
  | .CreateLanguageModel options => electron.CreateLanguageModel g handler m options
  | .GetLanguageModelParams => electron.GetLanguageModelParams g handler m

/-- Perform the calls one after the other on the same manager; the result is
the manager after the last call and the effects of all calls (those of a call
before those of the next one). -/
def runCalls {Num F32 : Type} (g : Gin Num F32) (handler : PromptAPIHandler Num)
    (m : UtilityAIManager Num) : List (ManagerCall F32) → UtilityAIManager Num × List (Effect F32)
  | [] => (m, [])
  | call :: rest =>
    let r := call.run g handler m
    let rs := runCalls g handler r.1 rest
    (rs.1, r.2.all ++ rs.2)

/-- Whether the value, when it is a promise, is settled at some point: one of
its two continuations fires. -/
def Value.settles {Num : Type} : Value Num → Bool
  | .promise _ .pending => false
  | _ => true

/-- Availability as the spec words it: the four strings name the four results,
every other string and every value that is not a string is `unavailable`. -/
def availabilityLookup {Num : Type} : Value Num → ModelAvailabilityCheckResult
  | .string s =>
    if s = "available" then .kAvailable
    else if s = "downloadable" then .kDownloadable
    else if s = "downloading" then .kDownloading
    else if s = "unavailable" then .kUnavailableUnknown
    else .kUnavailableUnknown
  | _ => .kUnavailableUnknown

/-! ## A sample instantiation of the number converters

Numbers are finite decimals; the narrowing to `float` is kept symbolic (a
`float` is named by the decimal it was narrowed from). -/

/-- A finite decimal `mantissa / 10 ^ places`. -/
structure Decimal where
  mantissa : Int
  places : Nat
  deriving DecidableEq, Repr

/-- The decimal is a non-negative integer, which is then returned. -/
def Decimal.toNat? (d : Decimal) : Option Nat :=
  if d.places = 0 ∧ 0 ≤ d.mantissa then some d.mantissa.toNat else none

/-- Sample converters on decimals: integers convert to themselves (`uint64`
modulo `2 ^ 64`, `uint32` only below `2 ^ 32`). -/
def sampleGin : Gin Decimal Decimal where
  toUint64 d := d.toNat?.map (fun n => n % 2 ^ 64)
  toUint32 d := d.toNat?.bind (fun n => if n < 2 ^ 32 then some n else none)
  toFloat d := d
  ofUint32 n := { mantissa := n, places := 0 }
  ofFloat d := d

/-- The object `{inputUsage: 5, inputQuota: 100, topK: 3, temperature: 0.7}`. -/
def sampleModelProps : Dictionary Decimal :=
  [ ("inputUsage", .number { mantissa := 5, places := 0 }),
    ("inputQuota", .number { mantissa := 100, places := 0 }),
    ("topK", .number { mantissa := 3, places := 0 }),
    ("temperature", .number { mantissa := 7, places := 1 }) ]

/-- The object `{inputUsage: 5, topK: 3, temperature: 0.7}`, which lacks
`inputQuota`. -/
def sampleModelPropsNoQuota : Dictionary Decimal :=
  [ ("inputUsage", .number { mantissa := 5, places := 0 }),
    ("topK", .number { mantissa := 3, places := 0 }),
    ("temperature", .number { mantissa := 7, places := 1 }) ]

/-- A language model class whose `create` returns `created` whatever the
options, and whose other methods return `undefined`. -/
def sampleClass (created : Value Decimal) : LanguageModelClass Decimal where
  availability _ := .undefined
  create _ := created
  params := .undefined

/-- A handler provider that returns `sampleClass created`. -/
def sampleHandler (created : Value Decimal) : PromptAPIHandler Decimal :=
  some (fun _ => .constructible (sampleClass created))

/-- A freshly constructed manager. -/
def sampleManager : UtilityAIManager Decimal :=
  UtilityAIManager.new (some 7) "https://example.test/"

/-- Create options that expect image, text and image input, in this order. -/
def sampleOptions : AILanguageModelCreateOptions Decimal where
  sampling_params := none
  expected_inputs :=
    some [ { type := .kImage, languages := none },
           { type := .kText, languages := none },
           { type := .kImage, languages := none } ]
  expected_outputs := none

/-! ## A sample `float` layout

A `float` is its IEEE 754 binary32 bit pattern, stored least significant byte
first. -/

/-- The integer obtained from the binary32 value with bit pattern `w` by
dropping the fraction (zero for infinities and NaN). -/
def binary32Trunc (w : Nat) : Int :=
  let sign := w / 2 ^ 31 % 2
  let exponent := w / 2 ^ 23 % 256
  let fraction := w % 2 ^ 23
  let magnitude : Nat :=
    if exponent < 127 ∨ exponent = 255 then 0
    else if exponent ≤ 150 then (2 ^ 23 + fraction) / 2 ^ (150 - exponent)
    else (2 ^ 23 + fraction) * 2 ^ (exponent - 150)
  if sign = 0 then (magnitude : Int) else - (magnitude : Int)

/-- Sample layout: little-endian bytes of the bit pattern; the narrowing to
`char` drops the fraction and keeps the low eight bits. -/
def sampleFloatLayout : FloatLayout Nat where
  bytes w := [w % 256, w / 2 ^ 8 % 256, w / 2 ^ 16 % 256, w / 2 ^ 24 % 256]
  toChar w := (binary32Trunc w % 256).toNat

/-- Audio with the two samples `0.5f` (`0x3F000000`) and `1.5f`
(`0x3FC00000`). -/
def sampleAudio : AudioData Nat where
  sample_rate := 16000
  channel_count := 1
  data := [0x3F000000, 0x3FC00000]

/-- A pixel conversion that always fails. -/
def sampleReadPixels : ReadPixels := fun _ _ => none

/-- A handler provider whose result is not a constructible class. -/
def sampleBadHandler : PromptAPIHandler Decimal :=
  some (fun _ => .notConstructible .undefined)

/-- A language model class whose `availability` and `params` both return
`returned`. -/
def sampleQueryClass (returned : Value Decimal) : LanguageModelClass Decimal where
  availability _ := returned
  create _ := .undefined
  params := returned

/-- A handler provider that returns `sampleQueryClass returned`. -/
def sampleQueryHandler (returned : Value Decimal) : PromptAPIHandler Decimal :=
  some (fun _ => .constructible (sampleQueryClass returned))

/-! ## Theorems -/

/-- C1: when `prompt` returns the immediate string `s`, `Prompt` emits exactly
`OnStreaming(s)` then `OnCompletion(ModelExecutionContextInfo(0))`, both before
returning, and nothing else (no `OnError`, nothing later). -/
theorem C1_prompt_immediate_string {Num : Type} (s : String) :
    Prompt (Value.string s : Value Num)
      = { sync := [.OnStreaming s, .OnCompletion (ModelExecutionContextInfo.mk 0)]
          later := [] } := by
  simp [Prompt, Value.IsString, stringFromV8]

/-- C2 (evaluation of the code): when `prompt` returns a promise that is later
rejected, `Prompt` emits no event at all, neither before returning nor when the
promise is rejected; in particular no `OnError` is emitted. -/
theorem C2_prompt_rejected_promise_emits_nothing {Num : Type}
    (props : List (String × Value Num)) (reason : Value Num) :
    (Prompt (Value.promise props (Fate.rejected reason))).all = []
      ∧ ((Prompt (Value.promise props (Fate.rejected reason))).all.filter
            ResponderEvent.isError).length = 0 := by
  simp [Prompt, Value.IsString, Value.IsPromise, Prompt.catch_cb, Trace.all]

/-- C3: when `prompt` returns a value that is neither a string nor a promise,
`Prompt` emits exactly one event before returning, `OnError(kErrorUnknown)`
with null quota info, and nothing later. -/
theorem C3_prompt_other_value {Num : Type} (val : Value Num)
    (hs : val.IsString = false) (hp : val.IsPromise = false) :
    Prompt val = { sync := [.OnError .kErrorUnknown none], later := [] } := by
  simp [Prompt, hs, hp]

/-- C3 witness: the handler returns `undefined`. -/
theorem C3_prompt_other_value_witness :
    (Value.undefined : Value Nat).IsString = false
      ∧ (Value.undefined : Value Nat).IsPromise = false
      ∧ Prompt (Value.undefined : Value Nat)
          = { sync := [.OnError .kErrorUnknown none], later := [] } :=
  ⟨rfl, rfl, C3_prompt_other_value Value.undefined rfl rfl⟩

/-! ### Helper lemmas -/

theorem toNat_injective (a b : AILanguageModelPromptType)
    (h : a.toNat = b.toNat) : a = b := by
  cases a <;> cases b <;> simp [AILanguageModelPromptType.toNat] at h <;> rfl

theorem mem_flat_set_insert (s : List AILanguageModelPromptType)
    (x t : AILanguageModelPromptType) :
    t ∈ flat_set_insert s x ↔ t = x ∨ t ∈ s := by
  induction s with
  | nil => simp [flat_set_insert]
  | cons y ys ih =>
    unfold flat_set_insert
    by_cases h1 : y.toNat < x.toNat
    · simp only [h1, if_true, List.mem_cons, ih]
      tauto
    · by_cases h2 : x.toNat < y.toNat
      · simp [h1, h2]
      · have hxy : x = y := toNat_injective x y (by omega)
        subst hxy
        simp [h1]

theorem pairwise_flat_set_insert (s : List AILanguageModelPromptType)
    (x : AILanguageModelPromptType)
    (hs : s.Pairwise (fun a b => a.toNat < b.toNat)) :
    (flat_set_insert s x).Pairwise (fun a b => a.toNat < b.toNat) := by
  induction s with
  | nil => simp [flat_set_insert]
  | cons y ys ih =>
    have hy := List.pairwise_cons.mp hs
    unfold flat_set_insert
    by_cases h1 : y.toNat < x.toNat
    · simp only [h1, if_true]
      refine List.pairwise_cons.mpr ⟨?_, ih hy.2⟩
      intro t ht
      rcases (mem_flat_set_insert ys x t).mp ht with rfl | ht
      · exact h1
      · exact hy.1 t ht
    · by_cases h2 : x.toNat < y.toNat
      · simp only [h1, h2, if_true, if_false]
        refine List.pairwise_cons.mpr ⟨?_, hs⟩
        intro t ht
        rcases List.mem_cons.mp ht with rfl | ht
        · exact h2
        · exact Nat.lt_trans h2 (hy.1 t ht)
      · simpa [h1, h2] using hs

theorem foldl_flat_set_insert (inputs : List AILanguageModelExpected)
    (init : List AILanguageModelPromptType)
    (hinit : init.Pairwise (fun a b => a.toNat < b.toNat)) :
    (inputs.foldl (fun set e => flat_set_insert set e.type) init).Pairwise
        (fun a b => a.toNat < b.toNat)
      ∧ ∀ t, t ∈ inputs.foldl (fun set e => flat_set_insert set e.type) init
            ↔ t ∈ init ∨ ∃ e ∈ inputs, e.type = t := by
  induction inputs generalizing init with
  | nil => simp [hinit]
  | cons e es ih =>
    have h := ih (flat_set_insert init e.type) (pairwise_flat_set_insert init e.type hinit)
    refine ⟨h.1, ?_⟩
    intro t
    simp only [List.foldl_cons, h.2 t, mem_flat_set_insert, List.mem_cons, exists_eq_or_imp]
    constructor
    · rintro ((rfl | h1) | h2)
      · exact Or.inr (Or.inl rfl)
      · exact Or.inl h1
      · exact Or.inr (Or.inr h2)
    · rintro (h1 | h2 | h2)
      · exact Or.inl (Or.inr h1)
      · exact Or.inl (Or.inl h2.symm)
      · exact Or.inr h2

theorem nodup_of_pairwise_toNat_lt (s : List AILanguageModelPromptType)
    (hs : s.Pairwise (fun a b => a.toNat < b.toNat)) : s.Nodup := by
  refine List.Pairwise.imp ?_ hs
  intro a b hab heq
  subst heq
  exact Nat.lt_irrefl _ hab

/-- A reply of `CreateLanguageModelInternal` that is an `OnResult` carries a
duplicate-free list of exactly the expected input types. -/
theorem CreateLanguageModelInternal_input_types {Num F32 : Type} (g : Gin Num F32)
    (language_model : Value Num) (options : AILanguageModelCreateOptions F32)
    (info : AILanguageModelInstanceInfo F32)
    (h : Effect.clientOnResult info ∈ CreateLanguageModelInternal g language_model options) :
    info.input_types.Nodup
      ∧ (∀ t, t ∈ info.input_types ↔ ∃ e ∈ options.expected_inputs.getD [], e.type = t)
      ∧ (options.expected_inputs = none → info.input_types = []) := by
  unfold CreateLanguageModelInternal at h
  simp only [SendClientRemoteError] at h
  split at h
  · simp at h
  split at h
  · simp at h
  split at h
  · simp at h
  split at h
  · simp at h
  split at h
  · simp at h
  simp only [List.mem_singleton, Effect.clientOnResult.injEq] at h
  subst h
  cases hexp : options.expected_inputs with
  | none => simp
  | some inputs =>
    have hf := foldl_flat_set_insert inputs [] List.Pairwise.nil
    refine ⟨nodup_of_pairwise_toNat_lt _ hf.1, ?_, by simp⟩
    intro t
    simpa using hf.2 t

/-- A promise passes the `IsObject` test. -/
theorem IsObject_of_IsPromise {Num : Type} (val : Value Num)
    (h : val.IsPromise = true) : val.IsObject = true := by
  cases val <;> simp_all [Value.IsPromise, Value.IsObject]

/-- Resolving the class only runs the provider and possibly throws. -/
theorem GetLanguageModelClass_effects {Num F32 : Type} (handler : PromptAPIHandler Num)
    (m : UtilityAIManager Num) (e : Effect F32)
    (he : e ∈ (@GetLanguageModelClass Num F32 handler m).2) :
    (∃ d, e = .handlerRun d) ∨ (∃ msg, e = .throwException msg) := by
  unfold GetLanguageModelClass at he
  split at he
  · simp at he
  · split at he
    · simp at he
    · dsimp only at he
      split at he
      · simp only [List.mem_cons, List.mem_singleton, List.not_mem_nil, or_false] at he
        rcases he with rfl | rfl
        · exact Or.inl ⟨_, rfl⟩
        · exact Or.inr ⟨_, rfl⟩
      · simp only [List.mem_singleton] at he
        exact Or.inl ⟨_, he⟩

/-- Resolving the class sends nothing to the client. -/
theorem GetLanguageModelClass_no_reply {Num F32 : Type} (handler : PromptAPIHandler Num)
    (m : UtilityAIManager Num) :
    (@GetLanguageModelClass Num F32 handler m).2.filter Effect.isClientReply = [] := by
  rw [List.filter_eq_nil_iff]
  intro e he
  rcases GetLanguageModelClass_effects handler m e he with ⟨d, rfl⟩ | ⟨msg, rfl⟩ <;>
    simp [Effect.isClientReply]

/-- `CreateLanguageModelInternal` only talks to the client. -/
theorem CreateLanguageModelInternal_all_replies {Num F32 : Type} (g : Gin Num F32)
    (language_model : Value Num) (options : AILanguageModelCreateOptions F32) :
    (CreateLanguageModelInternal g language_model options).filter Effect.isClientReply
      = CreateLanguageModelInternal g language_model options := by
  unfold CreateLanguageModelInternal
  repeat' split
  all_goals simp [SendClientRemoteError, Effect.isClientReply]

/-- The replies of `CreateLanguageModel` when the class is resolved and
`create` returns an object (a promise included): those of
`CreateLanguageModelInternal` on that object, all sent before returning. -/
theorem CreateLanguageModel_object {Num F32 : Type} (g : Gin Num F32)
    (handler : PromptAPIHandler Num) (m : UtilityAIManager Num)
    (options : AILanguageModelCreateOptions F32) (cls : LanguageModelClass Num)
    (hcls : (@GetLanguageModelClass Num F32 handler m).1.language_model_class_ = some cls)
    (hobj : (cls.create (createOptionsToV8 g (some options))).IsObject = true) :
    clientReplies (CreateLanguageModel g handler m options).2
        = CreateLanguageModelInternal g (cls.create (createOptionsToV8 g (some options)))
            options
      ∧ (CreateLanguageModel g handler m options).2.later = [] := by
  unfold CreateLanguageModel clientReplies Trace.all
  simp only [hcls, hobj, if_true, List.append_nil, List.filter_append,
    GetLanguageModelClass_no_reply, List.nil_append, CreateLanguageModelInternal_all_replies]
  simp [Effect.isClientReply]

/-- A promise returned by `create` is handled by the `IsObject` branch: the
replies are those of `CreateLanguageModelInternal` on the promise object
itself, sent before returning, and nothing is sent when the promise settles. -/
theorem CreateLanguageModel_promise {Num F32 : Type} (g : Gin Num F32)
    (handler : PromptAPIHandler Num) (m : UtilityAIManager Num)
    (options : AILanguageModelCreateOptions F32) (cls : LanguageModelClass Num)
    (props : Dictionary Num) (fate : Fate (Value Num))
    (hcls : (@GetLanguageModelClass Num F32 handler m).1.language_model_class_ = some cls)
    (hret : cls.create (createOptionsToV8 g (some options)) = .promise props fate) :
    clientReplies (CreateLanguageModel g handler m options).2
        = CreateLanguageModelInternal g (.object props) options
      ∧ (CreateLanguageModel g handler m options).2.later = [] := by
  have h := CreateLanguageModel_object g handler m options cls hcls
    (by rw [hret]; rfl)
  rw [hret] at h
  exact ⟨h.1.trans (by simp [CreateLanguageModelInternal, dictionaryFromV8]), h.2⟩

/-- A promise without properties of its own gets `OnError` before `create`
has returned to the event loop, whatever its eventual outcome. -/
theorem CreateLanguageModel_plain_promise {Num F32 : Type} (g : Gin Num F32)
    (handler : PromptAPIHandler Num) (m : UtilityAIManager Num)
    (options : AILanguageModelCreateOptions F32) (cls : LanguageModelClass Num)
    (fate : Fate (Value Num))
    (hcls : (@GetLanguageModelClass Num F32 handler m).1.language_model_class_ = some cls)
    (hret : cls.create (createOptionsToV8 g (some options)) = .promise [] fate) :
    clientReplies (CreateLanguageModel g handler m options).2
        = [.clientOnError .kUnableToCreateSession none]
      ∧ (CreateLanguageModel g handler m options).2.later = [] := by
  have h := CreateLanguageModel_promise g handler m options cls [] fate hcls hret
  exact ⟨h.1.trans (by
    simp [CreateLanguageModelInternal, dictionaryFromV8, Dictionary.Get,
      SendClientRemoteError]), h.2⟩

/-! ### The claims -/

/-- C4: when the class is resolved and `create` returns an immediate object
whose `inputUsage`, `inputQuota`, `topK` and `temperature` are numbers that
convert to `u`, `q`, `k` and the float `t`, `CreateLanguageModel` sends the
client exactly one reply, an `OnResult`, before returning, and the
`InstanceInfo` it carries has `input_usage = u`, `input_quota = q`,
`top_k = k` and `temperature = t`. -/
theorem C4_create_immediate_object {Num F32 : Type} (g : Gin Num F32)
    (handler : PromptAPIHandler Num) (m : UtilityAIManager Num)
    (options : AILanguageModelCreateOptions F32) (cls : LanguageModelClass Num)
    (props : Dictionary Num) (nu nq nk nt : Num) (u q k : Nat)
    (hcls : (@GetLanguageModelClass Num F32 handler m).1.language_model_class_ = some cls)
    (hret : cls.create (createOptionsToV8 g (some options)) = .object props)
    (hu : props.lookup "inputUsage" = some (.number nu)) (hu2 : g.toUint64 nu = some u)
    (hq : props.lookup "inputQuota" = some (.number nq)) (hq2 : g.toUint64 nq = some q)
    (hk : props.lookup "topK" = some (.number nk)) (hk2 : g.toUint32 nk = some k)
    (ht : props.lookup "temperature" = some (.number nt)) :
    ∃ info : AILanguageModelInstanceInfo F32,
      clientReplies (CreateLanguageModel g handler m options).2 = [.clientOnResult info]
        ∧ (CreateLanguageModel g handler m options).2.later = []
        ∧ info.input_usage = u ∧ info.input_quota = q
        ∧ info.sampling_params.top_k = k
        ∧ info.sampling_params.temperature = g.toFloat nt := by
  have h := CreateLanguageModel_object g handler m options cls hcls
    (by rw [hret]; rfl)
  rw [hret] at h
  refine ⟨AILanguageModelInstanceInfo.mk q u { top_k := k, temperature := g.toFloat nt }
    (match options.expected_inputs with
      | some expected_inputs =>
        expected_inputs.foldl
          (fun set expected_input => flat_set_insert set expected_input.type) []
      | none => []), ?_, h.2, rfl, rfl, rfl, rfl⟩
  rw [h.1]
  simp only [CreateLanguageModelInternal, dictionaryFromV8, Dictionary.Get, hu, hq, hk, ht,
    Gin.uint64FromV8, Gin.uint32FromV8, Gin.floatFromV8, hu2, hq2, hk2]

/-- C4 witness: `create` returns
`{inputUsage: 5, inputQuota: 100, topK: 3, temperature: 0.7}`. -/
theorem C4_create_immediate_object_witness :
    ∃ info : AILanguageModelInstanceInfo Decimal,
      clientReplies (CreateLanguageModel sampleGin
          (sampleHandler (.object sampleModelProps)) sampleManager sampleOptions).2
          = [.clientOnResult info]
        ∧ (CreateLanguageModel sampleGin
          (sampleHandler (.object sampleModelProps)) sampleManager sampleOptions).2.later = []
        ∧ info.input_usage = 5 ∧ info.input_quota = 100
        ∧ info.sampling_params.top_k = 3
        ∧ info.sampling_params.temperature = { mantissa := 7, places := 1 } :=
  C4_create_immediate_object sampleGin (sampleHandler (.object sampleModelProps))
    sampleManager sampleOptions (sampleClass (.object sampleModelProps)) sampleModelProps
    { mantissa := 5, places := 0 } { mantissa := 100, places := 0 }
    { mantissa := 3, places := 0 } { mantissa := 7, places := 1 } 5 100 3
    rfl rfl rfl rfl rfl rfl rfl rfl rfl

/-- C5: when the class is resolved and `create` returns an immediate object
in which at least one of `inputUsage`, `inputQuota`, `topK`, `temperature` is
absent or does not convert, `CreateLanguageModel` sends the client exactly one
reply, `OnError(kUnableToCreateSession)`, and so no `OnResult`. -/
theorem C5_create_malformed_object {Num F32 : Type} (g : Gin Num F32)
    (handler : PromptAPIHandler Num) (m : UtilityAIManager Num)
    (options : AILanguageModelCreateOptions F32) (cls : LanguageModelClass Num)
    (props : Dictionary Num)
    (hcls : (@GetLanguageModelClass Num F32 handler m).1.language_model_class_ = some cls)
    (hret : cls.create (createOptionsToV8 g (some options)) = .object props)
    (hbad : (∀ v, props.lookup "inputUsage" = some v → g.uint64FromV8 v = none)
      ∨ (∀ v, props.lookup "inputQuota" = some v → g.uint64FromV8 v = none)
      ∨ (∀ v, props.lookup "topK" = some v → g.uint32FromV8 v = none)
      ∨ (∀ v, props.lookup "temperature" = some v → g.floatFromV8 v = none)) :
    clientReplies (CreateLanguageModel g handler m options).2
        = [.clientOnError .kUnableToCreateSession none]
      ∧ (CreateLanguageModel g handler m options).2.later = [] := by
  have h := CreateLanguageModel_object g handler m options cls hcls
    (by rw [hret]; rfl)
  rw [hret] at h
  refine ⟨?_, h.2⟩
  rw [h.1]
  have hget : ∀ {T : Type} (conv : Value Num → Option T) (key : String),
      (∀ v, props.lookup key = some v → conv v = none) →
        Dictionary.Get conv props key = none := by
    intro T conv key hk
    unfold Dictionary.Get
    cases hl : props.lookup key with
    | none => rfl
    | some v => exact hk v hl
  unfold CreateLanguageModelInternal
  simp only [dictionaryFromV8, SendClientRemoteError]
  rcases hbad with hb | hb | hb | hb
  · rw [hget _ _ hb]
  · rw [hget _ _ hb]
    split <;> rfl
  · rw [hget _ _ hb]
    split
    · rfl
    · split <;> rfl
  · rw [hget _ _ hb]
    split
    · rfl
    · split
      · rfl
      · split <;> rfl

/-- C5 witness: `create` returns an object without `inputQuota`. -/
theorem C5_create_malformed_object_witness :
    clientReplies (CreateLanguageModel sampleGin
        (sampleHandler (.object sampleModelPropsNoQuota)) sampleManager sampleOptions).2
        = [.clientOnError .kUnableToCreateSession none]
      ∧ (CreateLanguageModel sampleGin
        (sampleHandler (.object sampleModelPropsNoQuota)) sampleManager sampleOptions).2.later
          = [] :=
  C5_create_malformed_object sampleGin (sampleHandler (.object sampleModelPropsNoQuota))
    sampleManager sampleOptions (sampleClass (.object sampleModelPropsNoQuota))
    sampleModelPropsNoQuota rfl rfl
    (Or.inr (Or.inl (fun v hv => by
      rw [show List.lookup "inputQuota" sampleModelPropsNoQuota = none from rfl] at hv
      cases hv)))

/-- C6: when the language model class is still empty after it has been
resolved, `CreateLanguageModel` sends the client exactly one reply,
`OnError(kUnableToCreateSession)` with null quota info (so no `OnResult`),
before returning, and calls no method of a language model class. -/
theorem C6_create_without_factory {Num F32 : Type} (g : Gin Num F32)
    (handler : PromptAPIHandler Num) (m : UtilityAIManager Num)
    (options : AILanguageModelCreateOptions F32)
    (hcls : (@GetLanguageModelClass Num F32 handler m).1.language_model_class_ = none) :
    clientReplies (CreateLanguageModel g handler m options).2
        = [.clientOnError .kUnableToCreateSession none]
      ∧ (CreateLanguageModel g handler m options).2.later = []
      ∧ ∀ method_name,
          Effect.callMethod method_name ∉ (CreateLanguageModel g handler m options).2.all := by
  unfold CreateLanguageModel clientReplies Trace.all
  simp only [hcls, List.append_nil, List.filter_append, GetLanguageModelClass_no_reply,
    List.nil_append, SendClientRemoteError]
  refine ⟨by simp [Effect.isClientReply], trivial, ?_⟩
  intro method_name hmem
  rcases List.mem_append.mp hmem with h | h
  · rcases GetLanguageModelClass_effects handler m _ h with ⟨d, hd⟩ | ⟨msg, hd⟩ <;> cases hd
  · simp at h

/-- C6 witness: a fresh manager with no handler set. -/
theorem C6_create_without_factory_witness :
    clientReplies (CreateLanguageModel sampleGin none sampleManager sampleOptions).2
        = [.clientOnError .kUnableToCreateSession none]
      ∧ (CreateLanguageModel sampleGin none sampleManager sampleOptions).2.later = []
      ∧ ∀ method_name,
          Effect.callMethod method_name
            ∉ (CreateLanguageModel sampleGin none sampleManager sampleOptions).2.all :=
  C6_create_without_factory sampleGin none sampleManager sampleOptions rfl

/-- C7: with no handler set and no class cached, `CanCreateLanguageModel`
does exactly one thing for every options value (null included): it runs the
reply callback with `kUnavailableUnknown` before returning.  The provider is
not run, no method is called, and the manager is left unchanged. -/
theorem C7_can_create_without_handler {Num F32 : Type} (g : Gin Num F32)
    (m : UtilityAIManager Num) (options : Option (AILanguageModelCreateOptions F32))
    (hempty : m.language_model_class_ = none) :
    CanCreateLanguageModel g none m options
      = (m, { sync := [.canCreateCallback .kUnavailableUnknown], later := [] }) := by
  simp [CanCreateLanguageModel, GetLanguageModelClass, hempty]

/-- C7 witness: a fresh manager. -/
theorem C7_can_create_without_handler_witness :
    sampleManager.language_model_class_ = none
      ∧ CanCreateLanguageModel sampleGin none sampleManager (some sampleOptions)
          = (sampleManager,
              { sync := [.canCreateCallback .kUnavailableUnknown], later := [] }) :=
  ⟨rfl, C7_can_create_without_handler sampleGin sampleManager (some sampleOptions) rfl⟩

/-- C8 (evaluation of the code): a promise that is fulfilled with
`{inputUsage: 5, inputQuota: 100, topK: 3, temperature: 0.7}` gets
`OnError(kUnableToCreateSession)` before `CreateLanguageModel` returns and
nothing once it is fulfilled, whereas the same object returned immediately gets
`OnResult` with the matching `InstanceInfo`. -/
theorem C8_deferred_create_reply_differs :
    (CreateLanguageModel sampleGin
        (sampleHandler (.promise [] (.fulfilled (.object sampleModelProps))))
        sampleManager sampleOptions).2
        = { sync := [ .handlerRun { webContentsId := some 7,
                                    securityOrigin := "https://example.test/" },
                      .callMethod "create",
                      .clientOnError .kUnableToCreateSession none ]
            later := [] }
      ∧ clientReplies (CreateLanguageModel sampleGin
          (sampleHandler (.object sampleModelProps)) sampleManager sampleOptions).2
          = [ .clientOnResult
                { input_quota := 100
                  input_usage := 5
                  sampling_params := { top_k := 3, temperature := { mantissa := 7, places := 1 } }
                  input_types := [.kText, .kImage] } ] := by
  decide

/-- C9 (evaluation of the code): a promise object that itself carries
`inputUsage: 5, inputQuota: 100, topK: 3, temperature: 0.7` and is later
rejected gets `OnResult` before `CreateLanguageModel` returns, and no
`OnError`, neither then nor when it is rejected. -/
theorem C9_rejected_promise_with_fields_gets_result :
    (CreateLanguageModel sampleGin
        (sampleHandler (.promise sampleModelProps (.rejected .undefined)))
        sampleManager sampleOptions).2
      = { sync := [ .handlerRun { webContentsId := some 7,
                                  securityOrigin := "https://example.test/" },
                    .callMethod "create",
                    .clientOnResult
                      { input_quota := 100
                        input_usage := 5
                        sampling_params :=
                          { top_k := 3, temperature := { mantissa := 7, places := 1 } }
                        input_types := [.kText, .kImage] } ]
          later := [] } := by
  decide

/-- C10: whenever `CreateLanguageModel` sends `OnResult(info)`, the list
`info.input_types` has no duplicates, a type is in it exactly when some entry
of `options.expected_inputs` has that type, and it is empty when
`expected_inputs` is absent. -/
theorem C10_input_types_deduplicated {Num F32 : Type} (g : Gin Num F32)
    (handler : PromptAPIHandler Num) (m : UtilityAIManager Num)
    (options : AILanguageModelCreateOptions F32) (info : AILanguageModelInstanceInfo F32)
    (hres : Effect.clientOnResult info ∈ (CreateLanguageModel g handler m options).2.all) :
    info.input_types.Nodup
      ∧ (∀ t, t ∈ info.input_types ↔ ∃ e ∈ options.expected_inputs.getD [], e.type = t)
      ∧ (options.expected_inputs = none → info.input_types = []) := by
  apply CreateLanguageModelInternal_input_types g
    ((((@GetLanguageModelClass Num F32 handler m).1.language_model_class_).map
      (fun cls => cls.create (createOptionsToV8 g (some options)))).getD .undefined)
  have hno : Effect.clientOnResult info ∉ (@GetLanguageModelClass Num F32 handler m).2 := by
    intro h
    rcases GetLanguageModelClass_effects handler m _ h with ⟨d, hd⟩ | ⟨msg, hd⟩ <;> cases hd
  unfold CreateLanguageModel Trace.all at hres
  cases hcls : (@GetLanguageModelClass Num F32 handler m).1.language_model_class_ with
  | none =>
    simp only [hcls, SendClientRemoteError, List.append_nil, List.mem_append,
      List.mem_singleton] at hres
    rcases hres with h | h
    · exact absurd h hno
    · cases h
  | some cls =>
    simp only [hcls, Option.map_some', Option.getD_some] at hres ⊢
    split at hres
    · simp only [List.append_nil, List.mem_append, List.mem_singleton] at hres
      rcases hres with (h | h) | h
      · exact absurd h hno
      · cases h
      · exact h
    · split at hres
      · have hsync : Effect.clientOnResult info
            ∉ (@GetLanguageModelClass Num F32 handler m).2 ++ [Effect.callMethod "create"] := by
          intro h
          rcases List.mem_append.mp h with h | h
          · exact absurd h hno
          · simp at h
        split at hres
        · simp only [CreateLanguageModel.then_cb, ite_self, List.append_nil] at hres
          exact absurd hres hsync
        · simp only [CreateLanguageModel.catch_cb, List.append_nil] at hres
          exact absurd hres hsync
        · simp only [List.append_nil] at hres
          exact absurd hres hsync
      · simp only [SendClientRemoteError, List.append_nil, List.mem_append,
          List.mem_singleton] at hres
        rcases hres with (h | h) | h
        · exact absurd h hno
        · cases h
        · cases h

/-- C10 witness: image, text and image are expected; the reply lists text and
image once each. -/
theorem C10_input_types_deduplicated_witness :
    ([.kText, .kImage] : List AILanguageModelPromptType).Nodup
      ∧ (∀ t, t ∈ ([.kText, .kImage] : List AILanguageModelPromptType)
            ↔ ∃ e ∈ sampleOptions.expected_inputs.getD [], e.type = t)
      ∧ (sampleOptions.expected_inputs = none
            → ([.kText, .kImage] : List AILanguageModelPromptType) = []) :=
  C10_input_types_deduplicated sampleGin (sampleHandler (.object sampleModelProps))
    sampleManager sampleOptions
    { input_quota := 100
      input_usage := 5
      sampling_params := { top_k := 3, temperature := { mantissa := 7, places := 1 } }
      input_types := [.kText, .kImage] }
    (by decide)

/-! ### Content converters -/

theorem length_writeBytes (buf data : List Nat) :
    (writeBytes buf data).length = buf.length := by
  simp only [writeBytes, List.length_append, List.length_take, List.length_drop]
  omega

/-- The audio buffer has `4 * n` bytes: one narrowed sample in each of the
first `n` bytes, zero in the `3 * n` bytes after them. -/
theorem audioToArrayBuffer_eq {F32 : Type} (layout : FloatLayout F32)
    (audio_data : AudioData F32) :
    audioToArrayBuffer layout audio_data
        = audio_data.data.map layout.toChar ++ List.replicate (3 * audio_data.data.length) 0
      ∧ (audioToArrayBuffer layout audio_data).length = 4 * audio_data.data.length := by
  constructor
  · simp only [audioToArrayBuffer, writeBytes, ArrayBuffer.New, sizeofFloat,
      List.length_replicate, List.length_map, List.drop_replicate]
    rw [List.take_of_length_le (by simp; omega)]
    congr 2
    omega
  · simp [audioToArrayBuffer, length_writeBytes, ArrayBuffer.New, sizeofFloat]

/-- C11 (evaluation of the code): for the two samples `0.5f` and `1.5f` the
marshaled audio buffer has 8 bytes, but they are `0, 1, 0, 0, 0, 0, 0, 0` (each
sample narrowed to one `char`, then zeros), not the byte-for-byte copy
`00 00 00 3F 00 00 C0 3F` of the sample array. -/
theorem C11_audio_buffer_is_not_a_byte_copy :
    promptContentToV8 sampleFloatLayout sampleReadPixels (some (.audio sampleAudio))
        = some [("type", .string "audio"),
                ("audio", .arrayBuffer [0, 1, 0, 0, 0, 0, 0, 0])]
      ∧ sampleBytes sampleFloatLayout sampleAudio.data = [0, 0, 0, 63, 0, 0, 192, 63] := by
  decide

/-- C12: for every bitmap of dimensions `width x height` (and whatever the
pixel read does), the buffer stored under `"image"` has exactly
`width * height * 4` bytes, the pixel read is given the row stride `width * 4`
and the N32 premultiplied layout of the same dimensions, and
`height * row_stride` is the length of the buffer. -/
theorem C12_image_buffer_size {F32 : Type} (layout : FloatLayout F32)
    (readPixels : ReadPixels) (bitmap : SkBitmap) :
    promptContentToV8 layout readPixels (some (.bitmap bitmap))
        = some [("type", .string "image"),
                ("image", .arrayBuffer (imageToArrayBuffer readPixels bitmap))]
      ∧ (imageToArrayBuffer readPixels bitmap).length
          = bitmap.info.width * bitmap.info.height * 4
      ∧ (imageReadPixelsCall bitmap).dstRowBytes = bitmap.info.width * 4
      ∧ (imageReadPixelsCall bitmap).dstInfo
          = { width := bitmap.info.width, height := bitmap.info.height,
              colorType := .kN32, alphaType := .kPremul }
      ∧ bitmap.info.height * (imageReadPixelsCall bitmap).dstRowBytes
          = (imageToArrayBuffer readPixels bitmap).length := by
  have hlen : (imageToArrayBuffer readPixels bitmap).length
      = bitmap.info.height * (bitmap.info.width * 4) := by
    unfold imageToArrayBuffer
    dsimp only
    split <;>
      simp [length_writeBytes, ArrayBuffer.New, SkImageInfo.computeMinByteSize,
        SkImageInfo.minRowBytes, SkImageInfo.bytesPerPixel, SkImageInfo.MakeN32Premul,
        SkBitmap.dimensions]
  have hrow : (imageReadPixelsCall bitmap).dstRowBytes = bitmap.info.width * 4 := by
    simp [imageReadPixelsCall, SkImageInfo.minRowBytes, SkImageInfo.bytesPerPixel,
      SkImageInfo.MakeN32Premul, SkBitmap.dimensions]
  refine ⟨rfl, ?_, hrow, rfl, ?_⟩
  · rw [hlen]; ring
  · rw [hlen, hrow]

/-- C13: the role converter gives `"system"`, `"user"` and `"assistant"` for
`kSystem`, `kUser` and `kAssistant`; these three strings are pairwise
different, and none of them is the fallback `"unknown"`. -/
theorem C13_role_strings {Num : Type} :
    roleToV8 .kSystem = (Value.string "system" : Value Num)
      ∧ roleToV8 .kUser = (Value.string "user" : Value Num)
      ∧ roleToV8 .kAssistant = (Value.string "assistant" : Value Num)
      ∧ roleToV8 .kSystem ≠ (roleToV8 .kUser : Value Num)
      ∧ roleToV8 .kSystem ≠ (roleToV8 .kAssistant : Value Num)
      ∧ roleToV8 .kUser ≠ (roleToV8 .kAssistant : Value Num)
      ∧ roleToV8 .kSystem ≠ (Value.string "unknown" : Value Num)
      ∧ roleToV8 .kUser ≠ (Value.string "unknown" : Value Num)
      ∧ roleToV8 .kAssistant ≠ (Value.string "unknown" : Value Num) := by
  refine ⟨rfl, rfl, rfl, ?_, ?_, ?_, ?_, ?_, ?_⟩ <;>
    simp [roleToV8]

/-! ### Resolution of the language model class -/

/-- With a class cached, resolving does nothing. -/
theorem GetLanguageModelClass_cached {Num F32 : Type} (handler : PromptAPIHandler Num)
    (m : UtilityAIManager Num) (cls : LanguageModelClass Num)
    (hm : m.language_model_class_ = some cls) :
    @GetLanguageModelClass Num F32 handler m = (m, []) := by
  simp [GetLanguageModelClass, hm]

/-- With nothing cached and a provider that returns a constructible class,
resolving runs the provider once and caches the class. -/
theorem GetLanguageModelClass_fresh {Num F32 : Type}
    (run : HandlerDetails → HandlerResult Num) (m : UtilityAIManager Num)
    (cls : LanguageModelClass Num) (hm : m.language_model_class_ = none)
    (hc : run { webContentsId := m.web_contents_id_, securityOrigin := m.security_origin_ }
      = .constructible cls) :
    @GetLanguageModelClass Num F32 (some run) m
      = ({ m with language_model_class_ := some cls },
          [.handlerRun { webContentsId := m.web_contents_id_,
                         securityOrigin := m.security_origin_ }]) := by
  simp [GetLanguageModelClass, hm, hc]

/-- Resolving the class runs no reply callback. -/
theorem GetLanguageModelClass_no_callback {Num F32 : Type} (handler : PromptAPIHandler Num)
    (m : UtilityAIManager Num) :
    (@GetLanguageModelClass Num F32 handler m).2.filter Effect.isCallback = [] := by
  rw [List.filter_eq_nil_iff]
  intro e he
  rcases GetLanguageModelClass_effects handler m e he with ⟨d, rfl⟩ | ⟨msg, rfl⟩ <;>
    simp [Effect.isCallback]

theorem CreateLanguageModelInternal_no_handlerRun {Num F32 : Type} (g : Gin Num F32)
    (language_model : Value Num) (options : AILanguageModelCreateOptions F32) :
    (CreateLanguageModelInternal g language_model options).filter Effect.isHandlerRun = [] := by
  unfold CreateLanguageModelInternal
  repeat' split
  all_goals simp [SendClientRemoteError, Effect.isHandlerRun]

/-- Each entry point leaves the manager as `GetLanguageModelClass` left it. -/
theorem ManagerCall_run_fst {Num F32 : Type} (g : Gin Num F32)
    (handler : PromptAPIHandler Num) (m : UtilityAIManager Num) (call : ManagerCall F32) :
    (call.run g handler m).1 = (@GetLanguageModelClass Num F32 handler m).1 := by
  cases call with
  | CanCreateLanguageModel options =>
    simp only [ManagerCall.run, CanCreateLanguageModel]
    repeat' split
    all_goals rfl
  | CreateLanguageModel options =>
    simp only [ManagerCall.run, CreateLanguageModel]
    repeat' split
    all_goals rfl
  | GetLanguageModelParams =>
    simp only [ManagerCall.run, GetLanguageModelParams]
    repeat' split
    all_goals rfl

/-- Each entry point runs the provider only through `GetLanguageModelClass`. -/
theorem ManagerCall_run_providerRuns {Num F32 : Type} (g : Gin Num F32)
    (handler : PromptAPIHandler Num) (m : UtilityAIManager Num) (call : ManagerCall F32) :
    providerRuns (call.run g handler m).2.all
      = providerRuns (@GetLanguageModelClass Num F32 handler m).2 := by
  cases call with
  | CanCreateLanguageModel options =>
    simp only [ManagerCall.run, CanCreateLanguageModel]
    repeat' split
    all_goals
      simp [providerRuns, Trace.all, List.filter_append, Effect.isHandlerRun,
        CanCreateLanguageModel.then_cb, CanCreateLanguageModel.catch_cb]
    all_goals (split <;> simp [Effect.isHandlerRun])
  | CreateLanguageModel options =>
    simp only [ManagerCall.run, CreateLanguageModel]
    repeat' split
    all_goals
      simp [providerRuns, Trace.all, List.filter_append, Effect.isHandlerRun,
        CreateLanguageModel.then_cb, CreateLanguageModel.catch_cb,
        CreateLanguageModelInternal_no_handlerRun, SendClientRemoteError]
  | GetLanguageModelParams =>
    simp only [ManagerCall.run, GetLanguageModelParams]
    repeat' split
    all_goals
      simp [providerRuns, Trace.all, List.filter_append, Effect.isHandlerRun,
        GetLanguageModelParams.then_cb, GetLanguageModelParams.catch_cb]
    all_goals (split <;> simp [Effect.isHandlerRun])

/-- With a class cached, no sequence of calls runs the provider or changes the
manager. -/
theorem runCalls_cached {Num F32 : Type} (g : Gin Num F32)
    (handler : PromptAPIHandler Num) (m : UtilityAIManager Num)
    (cls : LanguageModelClass Num) (hm : m.language_model_class_ = some cls)
    (calls : List (ManagerCall F32)) :
    providerRuns (runCalls g handler m calls).2 = 0 ∧ (runCalls g handler m calls).1 = m := by
  induction calls with
  | nil => simp [runCalls, providerRuns]
  | cons call rest ih =>
    have h1 : (call.run g handler m).1 = m := by
      rw [ManagerCall_run_fst, GetLanguageModelClass_cached handler m cls hm]
    have h2 : providerRuns (call.run g handler m).2.all = 0 := by
      rw [ManagerCall_run_providerRuns, GetLanguageModelClass_cached handler m cls hm]
      rfl
    simp only [runCalls, h1]
    refine ⟨?_, ih.2⟩
    have h3 := ih.1
    simp only [providerRuns, List.filter_append, List.length_append] at h2 h3 ⊢
    omega

/-- The table lookup of the converter agrees with the lookup as the spec
words it, a failed conversion being `kUnavailableUnknown`. -/
theorem availabilityFromV8_getD {Num : Type} (val : Value Num) :
    ((if val.IsString then availabilityFromV8 val else none).getD .kUnavailableUnknown)
      = availabilityLookup val := by
  cases val <;> try rfl
  case string s =>
    simp only [Value.IsString, if_true, availabilityFromV8, FromV8WithLookup, stringFromV8,
      availabilityLookup, List.lookup]
    by_cases h1 : s = "available"
    · subst h1; rfl
    by_cases h2 : s = "unavailable"
    · subst h2; rfl
    by_cases h3 : s = "downloading"
    · subst h3; rfl
    by_cases h4 : s = "downloadable"
    · subst h4; rfl
    have e1 : (s == "available") = false := by simpa using h1
    have e2 : (s == "unavailable") = false := by simpa using h2
    have e3 : (s == "downloading") = false := by simpa using h3
    have e4 : (s == "downloadable") = false := by simpa using h4
    simp [e1, e2, e3, e4, h1, h2, h3, h4]

/-- The resolve continuation of `CanCreateLanguageModel` runs the callback once,
with the lookup of the value the promise was fulfilled with. -/
theorem CanCreateLanguageModel_then_cb_eq {Num F32 : Type} (v : Value Num) :
    (CanCreateLanguageModel.then_cb v : List (Effect F32))
      = [.canCreateCallback (availabilityLookup v)] := by
  have hl := availabilityFromV8_getD v
  unfold CanCreateLanguageModel.then_cb
  split
  · rename_i converted hconv
    rw [hconv] at hl
    simp only [Option.getD_some] at hl
    rw [hl]
  · rename_i hconv
    rw [hconv] at hl
    simp only [Option.getD_none] at hl
    rw [hl]

/-- C14 (the claim as stated fails): with a handler set whose provider returns
`undefined`, two calls on one fresh manager run the provider twice. -/
theorem C14_provider_runs_twice_when_not_constructible :
    providerRuns
        (runCalls sampleGin sampleBadHandler sampleManager
          [.CanCreateLanguageModel none, .GetLanguageModelParams]).2 = 2
      ∧ ¬ providerRuns
        (runCalls sampleGin sampleBadHandler sampleManager
          [.CanCreateLanguageModel none, .GetLanguageModelParams]).2 ≤ 1 := by
  decide

/-- C14 (amended): when the provider returns a constructible class for this
manager, every sequence of `CanCreateLanguageModel` / `CreateLanguageModel` /
`GetLanguageModelParams` calls on the manager runs the provider at most once;
after the first call a class is cached, and the remaining calls neither run the
provider nor change the manager, so they use that cached class. -/
theorem C14_provider_runs_at_most_once_when_constructible {Num F32 : Type}
    (g : Gin Num F32) (run : HandlerDetails → HandlerResult Num)
    (m : UtilityAIManager Num) (cls : LanguageModelClass Num)
    (calls : List (ManagerCall F32))
    (hc : run { webContentsId := m.web_contents_id_, securityOrigin := m.security_origin_ }
      = .constructible cls) :
    providerRuns (runCalls g (some run) m calls).2 ≤ 1
      ∧ ∀ call rest, calls = call :: rest →
          ∃ cached, (call.run g (some run) m).1.language_model_class_ = some cached
            ∧ providerRuns (runCalls g (some run) (call.run g (some run) m).1 rest).2 = 0
            ∧ (runCalls g (some run) (call.run g (some run) m).1 rest).1
                = (call.run g (some run) m).1 := by
  have key : ∀ call : ManagerCall F32,
      ∃ cached, (call.run g (some run) m).1.language_model_class_ = some cached
        ∧ providerRuns (call.run g (some run) m).2.all ≤ 1 := by
    intro call
    rw [ManagerCall_run_fst, ManagerCall_run_providerRuns]
    cases hm : m.language_model_class_ with
    | none =>
      rw [GetLanguageModelClass_fresh run m cls hm hc]
      exact ⟨cls, rfl, by simp [providerRuns, Effect.isHandlerRun]⟩
    | some c =>
      rw [GetLanguageModelClass_cached (some run) m c hm]
      exact ⟨c, hm, by simp [providerRuns]⟩
  constructor
  · cases calls with
    | nil => simp [runCalls, providerRuns]
    | cons call rest =>
      obtain ⟨cached, hcached, hle⟩ := key call
      have hrest := (runCalls_cached g (some run) (call.run g (some run) m).1 cached
        hcached rest).1
      simp only [runCalls]
      simp only [providerRuns, List.filter_append, List.length_append] at hle hrest ⊢
      omega
  · intro call rest _
    obtain ⟨cached, hcached, _⟩ := key call
    exact ⟨cached, hcached,
      runCalls_cached g (some run) (call.run g (some run) m).1 cached hcached rest⟩

/-- C14 witness: three calls on a fresh manager whose provider returns a
class. -/
theorem C14_provider_runs_at_most_once_when_constructible_witness :
    providerRuns
        (runCalls sampleGin (sampleHandler (.object sampleModelProps)) sampleManager
          [.CanCreateLanguageModel none, .CreateLanguageModel sampleOptions,
            .GetLanguageModelParams]).2 ≤ 1 :=
  (C14_provider_runs_at_most_once_when_constructible sampleGin
    (fun _ => .constructible (sampleClass (.object sampleModelProps))) sampleManager
    (sampleClass (.object sampleModelProps))
    [.CanCreateLanguageModel none, .CreateLanguageModel sampleOptions,
      .GetLanguageModelParams] rfl).1

/-- C15: with a class resolved, let `val` be what `availability` returns.
If `val` is not a promise, the callback is run once, before returning, with
`availabilityLookup val`.  If `val` is a promise fulfilled with `v`, the
callback is run once, on fulfilment, with `availabilityLookup v`.  If `val` is
a promise that is rejected, the callback is run once, on rejection, with
`kUnavailableUnknown`. -/
theorem C15_availability_lookup {Num F32 : Type} (g : Gin Num F32)
    (handler : PromptAPIHandler Num) (m : UtilityAIManager Num)
    (options : Option (AILanguageModelCreateOptions F32)) (cls : LanguageModelClass Num)
    (hcls : (@GetLanguageModelClass Num F32 handler m).1.language_model_class_ = some cls) :
    ((cls.availability (createOptionsToV8 g options)).IsPromise = false →
        (CanCreateLanguageModel g handler m options).2.sync.filter Effect.isCallback
            = [.canCreateCallback
                (availabilityLookup (cls.availability (createOptionsToV8 g options)))]
          ∧ (CanCreateLanguageModel g handler m options).2.later = [])
      ∧ (∀ props v,
          cls.availability (createOptionsToV8 g options) = .promise props (.fulfilled v) →
            (CanCreateLanguageModel g handler m options).2.sync.filter Effect.isCallback = []
              ∧ (CanCreateLanguageModel g handler m options).2.later
                  = [.canCreateCallback (availabilityLookup v)])
      ∧ (∀ props reason,
          cls.availability (createOptionsToV8 g options) = .promise props (.rejected reason) →
            (CanCreateLanguageModel g handler m options).2.sync.filter Effect.isCallback = []
              ∧ (CanCreateLanguageModel g handler m options).2.later
                  = [.canCreateCallback .kUnavailableUnknown]) := by
  refine ⟨?_, ?_, ?_⟩
  · intro hp
    have hl := availabilityFromV8_getD (cls.availability (createOptionsToV8 g options))
    unfold CanCreateLanguageModel
    simp only [hcls]
    split
    · rename_i converted hconv
      rw [hconv] at hl
      simp only [Option.getD_some] at hl
      simp [List.filter_append, GetLanguageModelClass_no_callback, Effect.isCallback, hl]
    · rename_i hconv
      rw [hconv] at hl
      simp only [Option.getD_none] at hl
      simp [hp, List.filter_append, GetLanguageModelClass_no_callback, Effect.isCallback, hl]
  · intro props v hv
    unfold CanCreateLanguageModel
    simp only [hcls, hv]
    simp [show (Value.promise props (Fate.fulfilled v)).IsString = false from rfl,
      show (Value.promise props (Fate.fulfilled v)).IsPromise = true from rfl,
      CanCreateLanguageModel_then_cb_eq, List.filter_append,
      GetLanguageModelClass_no_callback, Effect.isCallback]
  · intro props reason hr
    unfold CanCreateLanguageModel
    simp only [hcls, hr]
    simp [show (Value.promise props (Fate.rejected reason)).IsString = false from rfl,
      show (Value.promise props (Fate.rejected reason)).IsPromise = true from rfl,
      CanCreateLanguageModel.catch_cb, List.filter_append,
      GetLanguageModelClass_no_callback, Effect.isCallback]

/-- C15 witness: `availability` returns a promise that is fulfilled with
`"downloadable"`. -/
theorem C15_availability_lookup_witness :
    (CanCreateLanguageModel sampleGin
        (sampleQueryHandler (.promise [] (.fulfilled (.string "downloadable"))))
        sampleManager none).2.sync.filter Effect.isCallback = []
      ∧ (CanCreateLanguageModel sampleGin
        (sampleQueryHandler (.promise [] (.fulfilled (.string "downloadable"))))
        sampleManager none).2.later = [.canCreateCallback .kDownloadable] :=
  (C15_availability_lookup sampleGin
    (sampleQueryHandler (.promise [] (.fulfilled (.string "downloadable"))))
    sampleManager none
    (sampleQueryClass (.promise [] (.fulfilled (.string "downloadable")))) rfl).2.1
    [] (.string "downloadable") rfl

/-- The resolve continuation of `GetLanguageModelParams` runs the callback
once. -/
theorem GetLanguageModelParams_then_cb_once {Num F32 : Type} (g : Gin Num F32)
    (v : Value Num) :
    ((GetLanguageModelParams.then_cb g v).filter Effect.isCallback).length = 1 := by
  unfold GetLanguageModelParams.then_cb
  split <;> simp [Effect.isCallback]

/-- C16: `CanCreateLanguageModel` and `GetLanguageModelParams` each run their
reply callback exactly once, over the part before returning and the
continuation together, whatever the handler does (none set, provider result not
constructible, any immediate value, any promise), provided a promise returned
by `availability` or `params` is settled at some point. -/
theorem C16_callback_exactly_once {Num F32 : Type} (g : Gin Num F32)
    (handler : PromptAPIHandler Num) (m : UtilityAIManager Num)
    (options : Option (AILanguageModelCreateOptions F32))
    (hav : ∀ cls, (@GetLanguageModelClass Num F32 handler m).1.language_model_class_ = some cls →
      (cls.availability (createOptionsToV8 g options)).settles = true)
    (hpar : ∀ cls, (@GetLanguageModelClass Num F32 handler m).1.language_model_class_ = some cls →
      cls.params.settles = true) :
    (callbackRuns (CanCreateLanguageModel g handler m options).2).length = 1
      ∧ (callbackRuns (GetLanguageModelParams g handler m).2).length = 1 := by
  constructor
  · unfold CanCreateLanguageModel callbackRuns Trace.all
    cases hcls : (@GetLanguageModelClass Num F32 handler m).1.language_model_class_ with
    | none =>
      simp [hcls, List.filter_append, GetLanguageModelClass_no_callback, Effect.isCallback]
    | some cls =>
      have hs := hav cls hcls
      simp only [hcls]
      generalize cls.availability (createOptionsToV8 g options) = val at hs ⊢
      cases val with
      | promise props fate =>
        cases fate with
        | pending => simp [Value.settles] at hs
        | fulfilled v =>
          simp [Value.IsString, Value.IsPromise, CanCreateLanguageModel_then_cb_eq,
            List.filter_append, GetLanguageModelClass_no_callback, Effect.isCallback]
        | rejected reason =>
          simp [Value.IsString, Value.IsPromise, CanCreateLanguageModel.catch_cb,
            List.filter_append, GetLanguageModelClass_no_callback, Effect.isCallback]
      | string s =>
        simp only [Value.IsString, if_true]
        split <;>
          simp [Value.IsPromise, List.filter_append, GetLanguageModelClass_no_callback,
            Effect.isCallback]
      | _ =>
        simp [Value.IsString, Value.IsPromise, List.filter_append,
          GetLanguageModelClass_no_callback, Effect.isCallback]
  · unfold GetLanguageModelParams callbackRuns Trace.all
    cases hcls : (@GetLanguageModelClass Num F32 handler m).1.language_model_class_ with
    | none =>
      simp [hcls, List.filter_append, GetLanguageModelClass_no_callback, Effect.isCallback]
    | some cls =>
      have hs := hpar cls hcls
      simp only [hcls]
      generalize cls.params = val at hs ⊢
      cases val with
      | promise props fate =>
        simp only [Value.IsObject, if_true]
        split
        · simp [List.filter_append, GetLanguageModelClass_no_callback, Effect.isCallback]
        · cases fate with
          | pending => simp [Value.settles] at hs
          | fulfilled v =>
            simp [Value.IsPromise, GetLanguageModelParams_then_cb_once,
              List.filter_append, GetLanguageModelClass_no_callback, Effect.isCallback]
          | rejected reason =>
            simp [Value.IsPromise, GetLanguageModelParams.catch_cb,
              List.filter_append, GetLanguageModelClass_no_callback, Effect.isCallback]
      | object props =>
        simp only [Value.IsObject, if_true]
        split <;>
          simp [Value.IsPromise, List.filter_append, GetLanguageModelClass_no_callback,
            Effect.isCallback]
      | _ =>
        simp [Value.IsObject, Value.IsPromise, List.filter_append,
          GetLanguageModelClass_no_callback, Effect.isCallback]

/-- C16 witness: `availability` and `params` both return a promise that is
rejected. -/
theorem C16_callback_exactly_once_witness :
    (callbackRuns (CanCreateLanguageModel sampleGin
        (sampleQueryHandler (.promise [] (.rejected .undefined))) sampleManager none).2).length
        = 1
      ∧ (callbackRuns (GetLanguageModelParams sampleGin
        (sampleQueryHandler (.promise [] (.rejected .undefined))) sampleManager).2).length
        = 1 :=
  C16_callback_exactly_once sampleGin
    (sampleQueryHandler (.promise [] (.rejected .undefined))) sampleManager none
    (fun _ h => by cases h; rfl) (fun _ h => by cases h; rfl)

end electron
